import Mathlib

/-!
Verification of the calendar-status bot (a Hono webhook service that
classifies "now" against the day's Google Calendar events and renders a
Japanese status message, minting a JWT-bearer credential to fetch them).

The definitions below are a shallow embedding of the repository's two
source files. Instants are modelled as `Option Int` (milliseconds since
epoch; `none` stands for a JavaScript `Invalid Date`, whose numeric value
is NaN, so every ordering comparison against it is false). Date-string
parsing (`new Date(string)`) is treated as an uninterpreted parameter
where it matters. Network responses are modelled as explicit inputs to
the functions that consume them.
-/

/-- A calendar event as the classifier sees it, after
`new Date(event.start.dateTime || event.start.date)`: each boundary is
either a valid instant (`some` milliseconds) or an Invalid Date (`none`).
Embeds the event values built at part_000 lines 102-103 / index.ts 90-91. -/
structure CalEvent where
  start : Option Int
  «end» : Option Int
deriving DecidableEq, Repr

/-- The test `now >= start && now < end` from part_000 line 104 /
index.ts line 92. JavaScript `Date` comparison coerces to a number, and
an Invalid Date coerces to NaN, for which every `<`, `>=` comparison is
false; hence an event with an invalid boundary never matches. -/
def evMatches (now : Int) (e : CalEvent) : Bool :=
  match e.start, e.«end» with
  | some s, some t => decide (s ≤ now) && decide (now < t)
  | _, _ => false

/-- The string returned when some event contains `now`
(part_000 line 105 / index.ts line 93). -/
def inMeetingMsg : String := "現在会議中です"

/-- Two-digit zero padding, as produced by `toLocaleTimeString` with
`hour: '2-digit', minute: '2-digit'`. -/
def pad2 (n : Nat) : String :=
  if n < 10 then "0" ++ toString n else toString n

/-- Models `date.toLocaleTimeString('ja-JP', {hour: '2-digit',
minute: '2-digit', hour12: false})` (part_000 lines 115-125): wall-clock
hour and minute in JST (UTC+9, no DST), 24-hour display; an Invalid Date
renders as the string "Invalid Date". -/
def fmtInstant : Option Int → String
  | none => "Invalid Date"
  | some t =>
    let tj := t + 9 * 3600000
    pad2 ((tj.fdiv 3600000).emod 24).toNat ++ ":" ++ pad2 ((tj.fdiv 60000).emod 60).toNat

/-- One per-event line of the free-day message: part_000 line 126,
`message += `\n${startStr} から ${endStr}``. (index.ts line 114 appends
an extra `まで`; no claim depends on that suffix.) -/
def eventLine (e : CalEvent) : String :=
  "\n" ++ fmtInstant e.start ++ " から " ++ fmtInstant e.«end»

/-- The message built when no event contains `now`: header with the
event count (part_000 line 110) followed by one line per event
(part_000 lines 111-127). -/
def freeMessage (events : List CalEvent) : String :=
  "本日は会議が" ++ toString events.length ++ "件入っていて\n"
    ++ String.join (events.map eventLine)

/-- The `for (const event of events)` loop of part_000 lines 100-107:
return `inMeetingMsg` at the first event containing `now`; when the scan
is exhausted, fall through to the free-day message built from the full
original list. -/
def statusLoop (now : Int) (events : List CalEvent) : List CalEvent → String
  | [] => freeMessage events
  | e :: rest => if evMatches now e then inMeetingMsg else statusLoop now events rest

/-- The pure core of `getCalendarStatus` (part_000 lines 100-128 /
index.ts lines 88-116), taking `now` and the fetched events as inputs. -/
def getCalendarStatusMsg (now : Int) (events : List CalEvent) : String :=
  statusLoop now events events

theorem statusLoop_eq (now : Int) (events l : List CalEvent) :
    statusLoop now events l =
      if l.any (evMatches now) then inMeetingMsg else freeMessage events := by
  induction l with
  | nil => simp [statusLoop]
  | cons e rest ih =>
    by_cases h : evMatches now e = true <;> simp [statusLoop, h, ih]

theorem freeMessage_ne_inMeeting (events : List CalEvent) :
    freeMessage events ≠ inMeetingMsg := by
  intro h
  have hd : (freeMessage events).data =
      ("本日は会議が".data ++ (toString events.length).data)
        ++ ("件入っていて\n".data ++ (String.join (events.map eventLine)).data) := by
    simp [freeMessage, String.data_append]
  rw [h] at hd
  have h0 := congrArg (fun l => l.head?) hd
  simp [inMeetingMsg] at h0

/-- The `start` (or `end`) object of one calendar response item:
two optional string fields, `dateTime` and `date`. -/
structure TimeField where
  dateTime : Option String := none
  date : Option String := none
deriving DecidableEq, Repr

/-- The field selection `event.start.dateTime || event.start.date`
(part_000 lines 102-103 / index.ts lines 90-91). JavaScript `||` returns
the right operand when the left is falsy: absent (`undefined`) or the
empty string. -/
def resolveField (f : TimeField) : Option String :=
  match f.dateTime with
  | some s => if s = "" then f.date else some s
  | none => f.date

/-- One item of the calendar event-list response, as read by
`getCalendarStatus`: a `start` and an `end` object. -/
structure CalItem where
  start : TimeField
  «end» : TimeField
deriving DecidableEq, Repr

/-- Models `new Date(event.start.dateTime || event.start.date)`.
`parse` is the uninterpreted Date-string parser; `new Date(undefined)`
is an Invalid Date (`none`), and so is any string `parse` rejects. -/
def itemInstant (parse : String → Option Int) (f : TimeField) : Option Int :=
  (resolveField f).bind parse

/-- The `CalEvent` the classifier derives from one response item. -/
def itemToEvent (parse : String → Option Int) (it : CalItem) : CalEvent :=
  ⟨itemInstant parse it.start, itemInstant parse it.«end»⟩

/-- The JSON body of the token-endpoint response as `getGoogleAuthToken`
reads it: an `access_token` field that may be absent. -/
structure TokenResponse where
  access_token : Option String
deriving DecidableEq, Repr

/-- Models the value `getGoogleAuthToken` returns (part_000 line 212):
`data.access_token`, read from the parsed response with no check. -/
def getGoogleAuthTokenValue (resp : TokenResponse) : Option String :=
  resp.access_token

/-- JavaScript falsiness of the returned token, as tested by
`if (!token)` at part_000 line 155: `undefined` and `""` are falsy. -/
def tokenFalsy : Option String → Bool
  | none => true
  | some s => s = ""

/-- The token-check-then-fetch tail of `getCalendarEvents` (part_000
lines 153-178): throw when the token is falsy, otherwise issue the
calendar GET and return `data.items || []`. `calendarItems` models the
`items` field of the calendar response (`none` when absent); it is only
consulted after the token check passes. No per-item validation occurs. -/
def getCalendarEventsPipeline (tokenResp : TokenResponse)
    (calendarItems : Option (List CalItem)) : Except String (List CalItem) :=
  let token := getGoogleAuthTokenValue tokenResp
  if tokenFalsy token then Except.error "Failed to obtain Google Auth token"
  else Except.ok (calendarItems.getD [])

/-- The fields of the service-account document that the JWT builder
reads (part_000 lines 12-23, restricted to the fields used). -/
structure GoogleKey where
  client_email : String
  token_uri : String
  private_key : String
deriving DecidableEq, Repr

/-- The JWT header object of part_000 line 186. -/
structure JWTHeader where
  alg : String
  typ : String
deriving DecidableEq, Repr

/-- The JWT payload object of part_000 lines 187-193. -/
structure JWTClaims where
  iss : String
  scope : String
  aud : String
  exp : Int
  iat : Int
deriving DecidableEq, Repr

/-- The assertion-building head of `getGoogleAuthToken` (part_000 lines
185-193): `now = Math.floor(Date.now() / 1000)` with `Date.now()` in
milliseconds passed as the `nowMillis` input, header `{alg: 'RS256',
typ: 'JWT'}`, and the payload fields exactly as written. -/
def buildAssertionParts (googleKey : GoogleKey) (scopes : List String)
    (nowMillis : Int) : JWTHeader × JWTClaims :=
  let now := nowMillis.fdiv 1000
  (⟨"RS256", "JWT"⟩,
   ⟨googleKey.client_email, String.intercalate " " scopes, googleKey.token_uri,
    now + 3600, now⟩)

/-- The 64-character standard base64 alphabet used by `btoa`. -/
def b64Alphabet : List Char :=
  "ABCDEFGHIJKLMNOPQRSTUVWXYZabcdefghijklmnopqrstuvwxyz0123456789+/".data

/-- Base64 digit for a 6-bit value. -/
def b64char (n : Nat) : Char := b64Alphabet.getD n 'A'

/-- Standard base64 of a byte sequence, with `=` padding, as `btoa`
produces it: 3 bytes become 4 digits, a 1- or 2-byte tail is padded. -/
def base64encodeBytes : List Nat → List Char
  | [] => []
  | [a] => [b64char (a / 4), b64char (a % 4 * 16), '=', '=']
  | [a, b] => [b64char (a / 4), b64char (a % 4 * 16 + b / 16), b64char (b % 16 * 4), '=']
  | a :: b :: c :: rest =>
      b64char (a / 4) :: b64char (a % 4 * 16 + b / 16)
        :: b64char (b % 16 * 4 + c / 64) :: b64char (c % 64)
        :: base64encodeBytes rest

/-- Models `btoa(str)`: base64 over the string's code units taken as
bytes. Real `btoa` throws for code units above 255; here the low byte is
taken, which does not affect the output alphabet. -/
def btoaChars (s : String) : List Char :=
  base64encodeBytes (s.data.map (fun c => c.toNat % 256))

/-- Models `.replace(/=/g, '')`: a global single-character removal. -/
def stripEq (l : List Char) : List Char := l.filter (fun c => c ≠ '=')

/-- Models `.replace(/\+/g, '-')`. -/
def plusToDash (l : List Char) : List Char :=
  l.map (fun c => if c = '+' then '-' else c)

/-- Models `.replace(/\//g, '_')`. -/
def slashToUnderscore (l : List Char) : List Char :=
  l.map (fun c => if c = '/' then '_' else c)

/-- The `base64url` function of part_000 lines 215-217. -/
def base64url (str : String) : String :=
  ⟨slashToUnderscore (plusToDash (stripEq (btoaChars str)))⟩

/-- The `arrayBufferToBase64Url` function of part_000 lines 228-231; the
buffer is a `Uint8Array`, so its values are reduced mod 256. -/
def arrayBufferToBase64Url (buffer : List Nat) : String :=
  ⟨slashToUnderscore (plusToDash (stripEq (base64encodeBytes (buffer.map (· % 256)))))⟩

theorem evMatches_iff (now : Int) (e : CalEvent) :
    evMatches now e = true ↔
      ∃ s t : Int, e.start = some s ∧ e.«end» = some t ∧ s ≤ now ∧ now < t := by
  cases e with
  | mk st en => cases st <;> cases en <;> simp [evMatches, and_assoc]

theorem evMatches_invalid (now : Int) (e : CalEvent)
    (h : e.start = none ∨ e.«end» = none) : evMatches now e = false := by
  cases e with
  | mk st en => cases st <;> cases en <;> simp_all [evMatches]

theorem any_perm_eq {α : Type} {l1 l2 : List α} (h : l1.Perm l2) (p : α → Bool) :
    l1.any p = l2.any p := by
  cases h1 : l1.any p <;> cases h2 : l2.any p <;> try rfl
  · rw [List.any_eq_false] at h1
    rw [List.any_eq_true] at h2
    obtain ⟨e, he, hp⟩ := h2
    exact absurd hp (by simpa using h1 e (h.mem_iff.mpr he))
  · rw [List.any_eq_false] at h2
    rw [List.any_eq_true] at h1
    obtain ⟨e, he, hp⟩ := h1
    exact absurd hp (by simpa using h2 e (h.mem_iff.mp he))

theorem any_middle_false (p : CalEvent → Bool) (e : CalEvent) (hp : p e = false)
    (pre post : List CalEvent) :
    (pre ++ e :: post).any p = (pre ++ post).any p := by
  simp [List.any_append, List.any_cons, hp]

theorem string_join_append (l1 l2 : List String) :
    String.join (l1 ++ l2) = String.join l1 ++ String.join l2 := by
  apply String.ext
  simp [String.join_eq, String.data_append]

theorem freeMessage_decomp (pre post : List CalEvent) (e : CalEvent) :
    freeMessage (pre ++ e :: post)
      = "本日は会議が" ++ toString (pre.length + post.length + 1) ++ "件入っていて\n"
        ++ (String.join (pre.map eventLine)
            ++ (eventLine e ++ String.join (post.map eventLine))) := by
  have hlen : (pre ++ e :: post).length = pre.length + post.length + 1 := by
    simp [List.length_append]; omega
  have hjoin : String.join ((pre ++ e :: post).map eventLine)
      = String.join (pre.map eventLine)
        ++ (eventLine e ++ String.join (post.map eventLine)) := by
    rw [List.map_append, string_join_append, List.map_cons]
    have : String.join (eventLine e :: post.map eventLine)
        = eventLine e ++ String.join (post.map eventLine) := by
      apply String.ext
      simp [String.join_eq, String.data_append]
    rw [this]
  rw [freeMessage, hlen, hjoin, String.append_assoc]

/-- C1: the status classifier returns the in-meeting message exactly when
some event satisfies `start <= now < end` (half-open interval, scanning
the list and returning at the first match); in particular, for a single
event spanning [09:00, 10:00) JST, `now = 09:00` is classified in-meeting
and `now = 10:00` is not. -/
theorem c1_classifier_half_open :
    (∀ (now : Int) (events : List CalEvent),
      getCalendarStatusMsg now events = inMeetingMsg ↔
        ∃ e ∈ events, ∃ s t : Int, e.start = some s ∧ e.«end» = some t ∧
          s ≤ now ∧ now < t)
    ∧ getCalendarStatusMsg 32400000 [⟨some 32400000, some 36000000⟩] = inMeetingMsg
    ∧ getCalendarStatusMsg 36000000 [⟨some 32400000, some 36000000⟩] ≠ inMeetingMsg := by
  refine ⟨?_, by decide, by decide⟩
  intro now events
  rw [getCalendarStatusMsg, statusLoop_eq]
  by_cases h : events.any (evMatches now) = true
  · rw [if_pos h]
    constructor
    · intro _
      rw [List.any_eq_true] at h
      obtain ⟨e, he, hm⟩ := h
      obtain ⟨s, t, hs, ht, h1, h2⟩ := (evMatches_iff now e).mp hm
      exact ⟨e, he, s, t, hs, ht, h1, h2⟩
    · intro _; rfl
  · rw [if_neg h]
    constructor
    · intro hc
      exact absurd hc (freeMessage_ne_inMeeting events)
    · rintro ⟨e, he, s, t, hs, ht, h1, h2⟩
      exact absurd
        (List.any_eq_true.mpr ⟨e, he, (evMatches_iff now e).mpr ⟨s, t, hs, ht, h1, h2⟩⟩) h

/-- C2 counterexample: a zero-duration event (start = end = epoch),
which violates `start < end`, is not excluded before classification: it
changes the Free rendering (the count reads 1 and a time line is
emitted), unlike the empty list the claim's exclusion would produce. -/
theorem c2_counterexample :
    getCalendarStatusMsg 5 [⟨some 0, some 0⟩] ≠ getCalendarStatusMsg 5 [] := by
  decide

/-- C2 amended: events violating `start < end` are NOT excluded. Such an
event can never satisfy the classifier's `start <= now < end` test, so it
never produces the in-meeting outcome, but it is still counted in the
Free message's header and rendered as a per-event line. -/
theorem c2_amended (e : CalEvent) (s t : Int) (hs : e.start = some s)
    (ht : e.«end» = some t) (hle : t ≤ s) :
    (∀ now : Int, evMatches now e = false)
    ∧ (∀ (now : Int) (pre post : List CalEvent),
        (pre ++ e :: post).any (evMatches now) = (pre ++ post).any (evMatches now))
    ∧ (∀ pre post : List CalEvent,
        freeMessage (pre ++ e :: post)
          = "本日は会議が" ++ toString (pre.length + post.length + 1) ++ "件入っていて\n"
            ++ (String.join (pre.map eventLine)
                ++ (eventLine e ++ String.join (post.map eventLine)))) := by
  have hm : ∀ now : Int, evMatches now e = false := by
    intro now
    cases e with
    | mk st en =>
      simp only at hs ht
      subst hs; subst ht
      simp [evMatches]
      intro h1
      omega
  exact ⟨hm, fun now pre post => any_middle_false _ e (hm now) pre post,
    fun pre post => freeMessage_decomp pre post e⟩

theorem c2_amended_witness :
    ((⟨some 3, some 1⟩ : CalEvent).start = some 3
      ∧ (⟨some 3, some 1⟩ : CalEvent).«end» = some 1 ∧ (1 : Int) ≤ 3)
    ∧ evMatches 0 ⟨some 3, some 1⟩ = false :=
  ⟨⟨rfl, rfl, by decide⟩, (c2_amended ⟨some 3, some 1⟩ 3 1 rfl rfl (by decide)).1 0⟩

/-- C3 counterexample: a response item lacking both `dateTime` and
`date` in both its `start` and `end` does not make event fetching fail:
with a well-formed token, the pipeline succeeds and returns the item
itself — no `MalformedEventError` is ever raised. -/
theorem c3_counterexample :
    getCalendarEventsPipeline ⟨some "tok"⟩ (some [⟨⟨none, none⟩, ⟨none, none⟩⟩])
      = Except.ok [⟨⟨none, none⟩, ⟨none, none⟩⟩] := rfl

/-- C3 amended: event fetching performs no per-item validation at all:
whenever the token exchange yields a non-empty token, the fetched items
are returned unchanged, including items lacking both date-time and date
fields; such items merely parse to invalid instants downstream. -/
theorem c3_amended (tokenResp : TokenResponse) (t : String)
    (h : tokenResp.access_token = some t) (hne : t ≠ "")
    (items : List CalItem) :
    getCalendarEventsPipeline tokenResp (some items) = Except.ok items := by
  simp [getCalendarEventsPipeline, getGoogleAuthTokenValue, tokenFalsy, h, hne]

theorem c3_amended_witness :
    (⟨some "tok"⟩ : TokenResponse).access_token = some "tok" ∧ "tok" ≠ ""
    ∧ getCalendarEventsPipeline ⟨some "tok"⟩ (some [⟨⟨none, none⟩, ⟨none, none⟩⟩])
        = Except.ok [⟨⟨none, none⟩, ⟨none, none⟩⟩] :=
  ⟨rfl, by decide,
    c3_amended ⟨some "tok"⟩ "tok" rfl (by decide) [⟨⟨none, none⟩, ⟨none, none⟩⟩]⟩

/-- C4: when the token-endpoint response has no `access_token` field,
the pipeline fails with the token-exchange error, and the result is the
same error for every possible calendar response — the calendar fetch is
never consulted after a failed exchange. -/
theorem c4_token_failure (tokenResp : TokenResponse)
    (h : tokenResp.access_token = none) (calendarItems : Option (List CalItem)) :
    getCalendarEventsPipeline tokenResp calendarItems
      = Except.error "Failed to obtain Google Auth token" := by
  simp [getCalendarEventsPipeline, getGoogleAuthTokenValue, tokenFalsy, h]

theorem c4_token_failure_witness :
    (⟨none⟩ : TokenResponse).access_token = none
    ∧ getCalendarEventsPipeline ⟨none⟩ (some [⟨⟨none, none⟩, ⟨some "x", none⟩⟩])
        = Except.error "Failed to obtain Google Auth token" :=
  ⟨rfl, c4_token_failure ⟨none⟩ rfl (some [⟨⟨none, none⟩, ⟨some "x", none⟩⟩])⟩

/-- C5: for every service identity, scope list and wall-clock time (in
milliseconds), the built assertion has header `{alg: "RS256", typ:
"JWT"}`, `iss` = the client email, `scope` = the scopes joined by single
spaces, `aud` = the token endpoint URL, `iat` = the time in whole
seconds since epoch, and `exp` = `iat + 3600`. -/
theorem c5_assertion_fields (googleKey : GoogleKey) (scopes : List String)
    (nowMillis : Int) :
    (buildAssertionParts googleKey scopes nowMillis).1 = ⟨"RS256", "JWT"⟩
    ∧ (buildAssertionParts googleKey scopes nowMillis).2.iss = googleKey.client_email
    ∧ (buildAssertionParts googleKey scopes nowMillis).2.scope
        = String.intercalate " " scopes
    ∧ (buildAssertionParts googleKey scopes nowMillis).2.aud = googleKey.token_uri
    ∧ (buildAssertionParts googleKey scopes nowMillis).2.iat = nowMillis.fdiv 1000
    ∧ (buildAssertionParts googleKey scopes nowMillis).2.exp
        = (buildAssertionParts googleKey scopes nowMillis).2.iat + 3600 :=
  ⟨rfl, rfl, rfl, rfl, rfl, rfl⟩

/-- C6: permuting the event list does not change the classification
outcome: the scan finds a containing event in one order exactly when it
does in the other, so the in-meeting verdict is order-independent. -/
theorem c6_order_independence (now : Int) (l1 l2 : List CalEvent)
    (h : l1.Perm l2) :
    l1.any (evMatches now) = l2.any (evMatches now)
    ∧ (getCalendarStatusMsg now l1 = inMeetingMsg ↔
        getCalendarStatusMsg now l2 = inMeetingMsg) := by
  have hany := any_perm_eq h (evMatches now)
  refine ⟨hany, ?_⟩
  rw [getCalendarStatusMsg, getCalendarStatusMsg, statusLoop_eq, statusLoop_eq, hany]
  by_cases h2 : l2.any (evMatches now) = true
  · rw [if_pos h2, if_pos h2]
  · rw [if_neg h2, if_neg h2]
    constructor
    · intro hc; exact absurd hc (freeMessage_ne_inMeeting l1)
    · intro hc; exact absurd hc (freeMessage_ne_inMeeting l2)

theorem c6_order_independence_witness :
    ([⟨some 46800000, some 50400000⟩, ⟨some 32400000, some 36000000⟩] : List CalEvent).Perm
        [⟨some 32400000, some 36000000⟩, ⟨some 46800000, some 50400000⟩]
    ∧ (getCalendarStatusMsg 34200000
          [⟨some 46800000, some 50400000⟩, ⟨some 32400000, some 36000000⟩] = inMeetingMsg ↔
        getCalendarStatusMsg 34200000
          [⟨some 32400000, some 36000000⟩, ⟨some 46800000, some 50400000⟩] = inMeetingMsg) :=
  ⟨List.Perm.swap (⟨some 32400000, some 36000000⟩ : CalEvent) ⟨some 46800000, some 50400000⟩ [],
    (c6_order_independence 34200000
      [⟨some 46800000, some 50400000⟩, ⟨some 32400000, some 36000000⟩]
      [⟨some 32400000, some 36000000⟩, ⟨some 46800000, some 50400000⟩]
      (List.Perm.swap (⟨some 32400000, some 36000000⟩ : CalEvent) ⟨some 46800000, some 50400000⟩ [])).2⟩

/-- C7: for every `now`, the empty event list classifies as free, and
the formatted message is exactly the header stating 0 meetings, with no
per-event time lines after it. -/
theorem c7_empty_day (now : Int) :
    getCalendarStatusMsg now [] = "本日は会議が0件入っていて\n"
    ∧ ([] : List CalEvent).any (evMatches now) = false
    ∧ getCalendarStatusMsg now [] ≠ inMeetingMsg := by
  refine ⟨?_, rfl, ?_⟩
  · show freeMessage [] = _
    decide
  · show freeMessage [] ≠ _
    exact freeMessage_ne_inMeeting []

/-- C8 counterexample: an item whose start carries both fields — a
present-but-empty `dateTime` and a populated `date` — resolves to the
`date` value, and its instant is determined by parsing the `date` value:
`||` tests JavaScript truthiness, not presence, so the present date-time
value is not the one used. -/
theorem c8_counterexample :
    resolveField ⟨some "", some "2024-01-01"⟩ = some "2024-01-01"
    ∧ resolveField ⟨some "", some "2024-01-01"⟩ ≠ some ""
    ∧ itemInstant (fun s => if s = "2024-01-01" then some 1704034800000 else none)
        ⟨some "", some "2024-01-01"⟩ = some 1704034800000 := by
  refine ⟨rfl, by decide, rfl⟩

/-- C8 amended: a NON-EMPTY date-time value takes precedence over the
whole-day date value: whenever `dateTime` is present and non-empty, it
alone is resolved and parsed to the event boundary's instant; an empty
date-time string is falsy and falls through to the `date` field. -/
theorem c8_amended (f : TimeField) (s : String) (hdt : f.dateTime = some s)
    (hne : s ≠ "") (parse : String → Option Int) :
    resolveField f = some s ∧ itemInstant parse f = parse s := by
  have hr : resolveField f = some s := by
    rw [resolveField, hdt]
    simp [hne]
  exact ⟨hr, by rw [itemInstant, hr]; rfl⟩

theorem c8_amended_witness :
    (⟨some "x", some "y"⟩ : TimeField).dateTime = some "x" ∧ "x" ≠ ""
    ∧ resolveField ⟨some "x", some "y"⟩ = some "x"
    ∧ itemInstant (fun _ => some 0) ⟨some "x", some "y"⟩ = some 0 :=
  ⟨rfl, by decide,
    (c8_amended ⟨some "x", some "y"⟩ "x" rfl (by decide) (fun _ => some 0)).1,
    (c8_amended ⟨some "x", some "y"⟩ "x" rfl (by decide) (fun _ => some 0)).2⟩

theorem mem_replace_chain {l : List Char} {c : Char}
    (h : c ∈ slashToUnderscore (plusToDash (stripEq l))) :
    c ≠ '+' ∧ c ≠ '/' ∧ c ≠ '=' := by
  simp only [slashToUnderscore, plusToDash, stripEq, List.mem_map, List.mem_filter] at h
  obtain ⟨b, ⟨a, ⟨ha, hane⟩, hb⟩, hc⟩ := h
  subst hc
  subst hb
  by_cases h1 : a = '+'
  · simp [h1]
  · rw [if_neg h1]
    by_cases h2 : a = '/'
    · simp [h2]
    · rw [if_neg h2]
      exact ⟨h1, h2, by simpa using hane⟩

/-- C9: for every input string and every signature byte buffer, the
base64url encoders produce strings containing no '+', no '/', and no
'=' character: the three global replacements remove all padding and map
the unsafe alphabet characters to '-' and '_'. -/
theorem c9_encoding_purity (str : String) (buffer : List Nat) :
    ('+' ∉ (base64url str).data ∧ '/' ∉ (base64url str).data
      ∧ '=' ∉ (base64url str).data)
    ∧ ('+' ∉ (arrayBufferToBase64Url buffer).data
        ∧ '/' ∉ (arrayBufferToBase64Url buffer).data
        ∧ '=' ∉ (arrayBufferToBase64Url buffer).data) := by
  refine ⟨⟨?_, ?_, ?_⟩, ⟨?_, ?_, ?_⟩⟩ <;> intro h
  · exact (mem_replace_chain h).1 rfl
  · exact (mem_replace_chain h).2.1 rfl
  · exact (mem_replace_chain h).2.2 rfl
  · exact (mem_replace_chain h).1 rfl
  · exact (mem_replace_chain h).2.1 rfl
  · exact (mem_replace_chain h).2.2 rfl

/-- C10: an item whose start or end resolves and parses to an invalid
instant never matches the in-meeting test for any `now`, and its
presence never changes the scan's verdict; yet it is not dropped: the
Free message counts it (count = pre + post + 1) and renders a per-event
line for it, and the fetch pipeline accepts it without error. -/
theorem c10_invalid_item_harmless (parse : String → Option Int) (it : CalItem)
    (hinv : itemInstant parse it.start = none ∨ itemInstant parse it.«end» = none)
    (now : Int) (pre post : List CalItem) :
    evMatches now (itemToEvent parse it) = false
    ∧ ((pre ++ it :: post).map (itemToEvent parse)).any (evMatches now)
        = ((pre ++ post).map (itemToEvent parse)).any (evMatches now)
    ∧ freeMessage ((pre ++ it :: post).map (itemToEvent parse))
        = "本日は会議が" ++ toString (pre.length + post.length + 1) ++ "件入っていて\n"
          ++ (String.join ((pre.map (itemToEvent parse)).map eventLine)
              ++ (eventLine (itemToEvent parse it)
                  ++ String.join ((post.map (itemToEvent parse)).map eventLine)))
    ∧ getCalendarEventsPipeline ⟨some "tok"⟩ (some (pre ++ it :: post))
        = Except.ok (pre ++ it :: post) := by
  have hm : evMatches now (itemToEvent parse it) = false :=
    evMatches_invalid now _ (by rcases hinv with h | h <;> [exact Or.inl h; exact Or.inr h])
  refine ⟨hm, ?_, ?_, ?_⟩
  · rw [List.map_append, List.map_cons, List.map_append,
      any_middle_false _ _ hm (pre.map (itemToEvent parse)) (post.map (itemToEvent parse))]
  · have := freeMessage_decomp (pre.map (itemToEvent parse))
      (post.map (itemToEvent parse)) (itemToEvent parse it)
    rw [List.map_append, List.map_cons, this, List.length_map, List.length_map]
  · simp [getCalendarEventsPipeline, getGoogleAuthTokenValue, tokenFalsy]

theorem c10_invalid_item_harmless_witness :
    (itemInstant (fun _ => none) (⟨⟨none, none⟩, ⟨none, none⟩⟩ : CalItem).start = none
      ∨ itemInstant (fun _ => none) (⟨⟨none, none⟩, ⟨none, none⟩⟩ : CalItem).«end» = none)
    ∧ evMatches 0 (itemToEvent (fun _ => none) ⟨⟨none, none⟩, ⟨none, none⟩⟩) = false :=
  ⟨Or.inl rfl,
    (c10_invalid_item_harmless (fun _ => none) ⟨⟨none, none⟩, ⟨none, none⟩⟩
      (Or.inl rfl) 0 [] []).1⟩
